import Mathlib

/- Shallow embedding of the extended_path package (src/extended_path/__init__.py).

   ExtendedPath subclasses pathlib.Path; paths are modelled with the POSIX flavour
   (forward slash as the only separator), matching the separator convention the
   design fixes. A pathlib path is modelled by its absoluteness flag plus its parts.
   The filename validation is performed by the external pathvalidate library, whose
   code is not part of the repository; the validator is therefore modelled from the
   specification (each such definition is marked below). Filesystem effects are
   modelled by an explicit collaborator record, and the per-instance cache fields by
   an explicit state record threaded through the cached readers. -/

/-- Character for the ASCII apostrophe (code 39), used by the Python bytes repr. -/
def apos : Char := Char.ofNat 39

/-- Character for the ASCII double quote (code 34). -/
def dquote : Char := Char.ofNat 34

/-- Decimal digit character for a value below ten. -/
def digitChar (d : Nat) : Char := Char.ofNat (48 + d)

/-- Fuel-driven accumulation of the decimal digits of a natural number. -/
def natDigitsAux : Nat → Nat → List Char
  | 0, _ => []
  | fuel + 1, n =>
    if n < 10 then [digitChar n] else natDigitsAux fuel (n / 10) ++ [digitChar (n % 10)]

/-- Decimal digit string of a natural number, most significant digit first. -/
def natDigits (n : Nat) : List Char := natDigitsAux (n + 1) n

/-- Python str applied to an int: an optional leading minus sign and decimal digits. -/
def intStr (n : Int) : String :=
  if n < 0 then String.mk ('-' :: natDigits n.natAbs) else String.mk (natDigits n.toNat)

/-- Left pad a decimal rendering with zeros to the given width (printf %0wd). -/
def padZeros (w n : Nat) : List Char :=
  List.replicate (w - (natDigits n).length) '0' ++ natDigits n

/-- Python str applied to a datetime.date: the ISO form YYYY-MM-DD. -/
def dateStr (y m d : Nat) : String :=
  String.mk (padZeros 4 y ++ '-' :: (padZeros 2 m ++ '-' :: padZeros 2 d))

/-- Model of a datetime.date value. -/
structure PyDate where
  year : Nat
  month : Nat
  day : Nat
deriving DecidableEq

/-- Model of a datetime.datetime value. The field ts is the POSIX timestamp of the
    instant the value denotes, in whole seconds: the result of int(value.timestamp()).
    Sub-second precision is immaterial to the claims and is not modelled. -/
structure PyDatetime where
  ts : Int
  year : Nat
  month : Nat
  day : Nat
  hour : Nat
  minute : Nat
  second : Nat
deriving DecidableEq

/-- Python str applied to a datetime.datetime (zero microseconds): YYYY-MM-DD HH:MM:SS. -/
def datetimeStr (f : PyDatetime) : String :=
  String.mk (padZeros 4 f.year ++ '-' :: (padZeros 2 f.month ++ '-' :: (padZeros 2 f.day
    ++ ' ' :: (padZeros 2 f.hour ++ ':' :: (padZeros 2 f.minute ++ ':' :: padZeros 2 f.second)))))

/-- Model of a pathlib path (POSIX flavour): absoluteness plus the list of parts. -/
structure PyPath where
  absolute : Bool
  segments : List String
deriving DecidableEq

/-- Inputs accepted by ExtendedPath construction and append: str, bytes (as the list of
    byte values), int, float, date, datetime, or an existing path-like value. A float is
    represented by the decimal string Python str renders it as, the only attribute of
    the value the code uses. -/
inductive PyValue where
  | vStr (s : String)
  | vBytes (bs : List Nat)
  | vInt (n : Int)
  | vFloat (rendering : String)
  | vDate (d : PyDate)
  | vDatetime (f : PyDatetime)
  | vPath (p : PyPath)
deriving DecidableEq

/-- Python isinstance(value, datetime). -/
def isinstance_datetime : PyValue → Bool
  | .vDatetime _ => true
  | _ => false

/-- Python isinstance(value, date): datetime is a subclass of date, so a datetime value
    also matches this test. -/
def isinstance_date : PyValue → Bool
  | .vDate _ => true
  | .vDatetime _ => true
  | _ => false

/-- Python isinstance(value, float). -/
def isinstance_float : PyValue → Bool
  | .vFloat _ => true
  | _ => false

/-- Python isinstance(value, int). -/
def isinstance_int : PyValue → Bool
  | .vInt _ => true
  | _ => false

/-- Python isinstance(value, str). -/
def isinstance_str : PyValue → Bool
  | .vStr _ => true
  | _ => false

/-- Python isinstance(value, bytes). -/
def isinstance_bytes : PyValue → Bool
  | .vBytes _ => true
  | _ => false

/-- Hexadecimal digit character, lowercase. -/
def hexDigit (d : Nat) : Char := if d < 10 then digitChar d else Char.ofNat (87 + d)

/-- Escape of one byte inside a Python bytes repr with the given quote character. -/
def byteEscape (quote : Char) (b : Nat) : List Char :=
  if b = 92 then ['\\', '\\']
  else if b = 9 then ['\\', 't']
  else if b = 10 then ['\\', 'n']
  else if b = 13 then ['\\', 'r']
  else if b = quote.toNat then ['\\', quote]
  else if 32 ≤ b ∧ b ≤ 126 then [Char.ofNat b]
  else ['\\', 'x', hexDigit (b / 16), hexDigit (b % 16)]

/-- Python str (equivalently repr) applied to a bytes object: a b prefix, a quote, the
    escaped bytes, and a closing quote. The quote is the apostrophe unless the bytes
    contain an apostrophe but no double quote. -/
def pyReprBytes (bs : List Nat) : String :=
  let quote := if bs.contains 39 && !(bs.contains 34) then dquote else apos
  String.mk ('b' :: quote :: ((bs.map (byteEscape quote)).flatten ++ [quote]))

/-- One step of splitting a character list on the separator; used with foldr, it starts
    a new part at each slash and extends the current first part otherwise. -/
def splitPush (c : Char) (acc : List (List Char)) : List (List Char) :=
  if c == '/' then [] :: acc
  else
    match acc with
    | [] => [[c]]
    | s :: rest => (c :: s) :: rest

/-- Raw split of a character list on slashes, keeping empty parts. -/
def splitAll (cs : List Char) : List (List Char) := cs.foldr splitPush [[]]

/-- Parse of one textual fragment the way PurePosixPath does: a leading slash makes the
    path absolute, and the parts are the nonempty components other than a single dot. -/
def pathParse (s : String) : PyPath :=
  { absolute := match s.data with
      | c :: _ => c == '/'
      | [] => false
    segments := ((splitAll s.data).filter (fun l => !(l.isEmpty) && !(l == ['.']))).map
      (fun l => String.mk l) }

/-- Interleave the separator between the parts. -/
def joinChars : List String → List Char
  | [] => []
  | [s] => s.data
  | s :: rest => s.data ++ '/' :: joinChars rest

/-- Textual form of a path, as str does on a PurePosixPath. -/
def pathText (p : PyPath) : String :=
  match p.segments with
  | [] => if p.absolute then "/" else "."
  | segs => if p.absolute then String.mk ('/' :: joinChars segs) else String.mk (joinChars segs)

/-- One pathlib join step (the slash operator of PurePath): an absolute right operand
    resets the path, otherwise its parts are appended. -/
def joinStep (a b : PyPath) : PyPath :=
  if b.absolute then b else { absolute := a.absolute, segments := a.segments ++ b.segments }

/-- Join of several fragments, as Path(*fragments) does. -/
def pathJoin (ps : List PyPath) : PyPath :=
  ps.foldl joinStep { absolute := false, segments := [] }

/-- Modelled from the spec: the 22 reserved Windows device names checked by the
    Filename Validator. The validator is the external pathvalidate library, whose code
    is not under src; it is modelled here from section 4.2 of the specification. -/
def reservedNames : List String :=
  ["CON", "PRN", "AUX", "NUL",
   "COM1", "COM2", "COM3", "COM4", "COM5", "COM6", "COM7", "COM8", "COM9",
   "LPT1", "LPT2", "LPT3", "LPT4", "LPT5", "LPT6", "LPT7", "LPT8", "LPT9"]

/-- Modelled from the spec: the reserved Windows character set a segment must not
    contain. -/
def illegalCharacters : List Char :=
  ['<', '>', ':', dquote, '/', '\\', '|', '?', '*']

/-- Character-wise uppercasing used for the case-insensitive reserved-name comparison. -/
def upperStr (s : String) : String := String.mk (s.data.map Char.toUpper)

/-- Modelled from the spec: name-without-extension of a segment — everything before the
    last period, when a period occurs beyond the first character; otherwise the segment
    itself. -/
def stemChars (cs : List Char) : List Char :=
  match cs.reverse.dropWhile (fun c => !(c == '.')) with
  | [] => cs
  | [_] => cs
  | _ :: rest => rest.reverse

/-- Name-without-extension of a segment string. -/
def stemOf (s : String) : String := String.mk (stemChars s.data)

/-- Whether a string ends with the given character. -/
def endsWithChar (s : String) (c : Char) : Bool := s.data.getLast? == some c

/-- UTF-8 encoded byte length of a string. -/
def utf8Len (s : String) : Nat := (s.data.map Char.utf8Size).sum

/-- Failure kinds surfaced by validation: illegal-name (reserved device name, trailing
    period or space, illegal character, or the whole-path single-period rule) and
    name-too-long, each carrying the offending text. -/
inductive ValidationError where
  | illegalName (offending : String)
  | nameTooLong (offending : String)
deriving DecidableEq

/-- Modelled from the spec: the per-segment rules of the Filename Validator, evaluated
    in the order the spec lists them, reporting the first violation: (1) reserved
    device name, compared case-insensitively on the full segment text and on its
    name-without-extension; (2) trailing period or space; (3) reserved Windows
    characters; (4) UTF-8 byte length above 255. -/
def validateSegment (seg : String) : Option ValidationError :=
  if reservedNames.contains (upperStr seg) || reservedNames.contains (upperStr (stemOf seg)) then
    some (.illegalName seg)
  else if endsWithChar seg '.' || endsWithChar seg ' ' then
    some (.illegalName seg)
  else if seg.data.any (fun c => illegalCharacters.contains c) then
    some (.illegalName seg)
  else if 255 < utf8Len seg then
    some (.nameTooLong seg)
  else
    none

/-- Modelled from the spec: the Filename Validator on a whole path — a path whose
    entire textual form is a single period is illegal, and otherwise every segment is
    checked in order and the first violation is reported. -/
def validate_filepath (p : PyPath) : Option ValidationError :=
  if pathText p = "." then some (.illegalName (pathText p))
  else p.segments.findSome? validateSegment

/-- Python str applied to each supported input kind. -/
def pyStr : PyValue → String
  | .vStr s => s
  | .vBytes bs => pyReprBytes bs
  | .vInt n => intStr n
  | .vFloat rendering => rendering
  | .vDate d => dateStr d.year d.month d.day
  | .vDatetime f => datetimeStr f
  | .vPath p => pathText p

/-- Timestamp attribute read by the datetime branch of the converter. -/
def datetimeTs : PyValue → Int
  | .vDatetime f => f.ts
  | _ => 0

/-- Path payload of a path-like value, for the pass-through branch of the converter. -/
def pathPayload : PyValue → PyPath
  | .vPath p => p
  | _ => { absolute := false, segments := [] }

/-- ExtendedPath._convert_to_path: a datetime converts to Path of the string of its
    integer Unix timestamp (checked before date because datetime is a subclass of
    date); a date, float, int, str or bytes value converts to Path of its str; any
    other path-like value is returned unchanged. -/
def _convert_to_path (value : PyValue) : PyPath :=
  if isinstance_datetime value then
    pathParse (intStr (datetimeTs value))
  else if isinstance_date value || isinstance_float value || isinstance_int value
      || isinstance_str value || isinstance_bytes value then
    pathParse (pyStr value)
  else
    pathPayload value

/-- ExtendedPath.__new__: convert every argument, join the fragments, validate the
    whole joined path, and only then produce the path value; a validation failure
    propagates and no value is produced. -/
def ExtendedPath.new (args : List PyValue) : Except ValidationError PyPath :=
  let path_fragments := args.map _convert_to_path
  let full_path := pathJoin path_fragments
  match validate_filepath full_path with
  | some e => .error e
  | none => .ok full_path

/-- ExtendedPath.__truediv__: convert the appended value, join it onto the base path,
    validate the result as a whole, and only then produce the new path value; on
    failure the base path is unaffected and no new value is produced. -/
def ExtendedPath.truediv (self : PyPath) (key : PyValue) : Except ValidationError PyPath :=
  let full_path := joinStep self (_convert_to_path key)
  match validate_filepath full_path with
  | some e => .error e
  | none => .ok full_path

/-- Paths observable to a caller: produced by construction, or by appending a value to
    an observable path. -/
inductive ReachablePath : PyPath → Prop where
  | new (args : List PyValue) (p : PyPath) : ExtendedPath.new args = .ok p → ReachablePath p
  | div (base : PyPath) (key : PyValue) (p : PyPath) :
      ReachablePath base → ExtendedPath.truediv base key = .ok p → ReachablePath p

/-- External filesystem collaborator: existence, last-modified time (POSIX seconds),
    and the content a read returns, all keyed by the textual path. -/
structure FileSystem where
  exists_ : String → Bool
  mtime : String → Int
  readText : String → String
  readBytes : String → List Nat

/-- ExtendedPath.aware_mtime: the last-modified time as a timezone-aware datetime;
    aware datetimes compare by the instant they denote, modelled as POSIX seconds. -/
def aware_mtime (fs : FileSystem) (self : PyPath) : Int := fs.mtime (pathText self)

/-- ExtendedPath.up_to_date: false when the path does not exist; true when it exists
    and no timestamp is given; otherwise true exactly when the aware mtime is strictly
    later than the timezone-normalized timestamp. -/
def up_to_date (fs : FileSystem) (self : PyPath) (timestamp : Option PyDatetime) : Bool :=
  if !(fs.exists_ (pathText self)) then
    false
  else
    match timestamp with
    | none => true
    | some t => decide (t.ts < aware_mtime fs self)

/-- ExtendedPath.outdated: the negation of up_to_date. -/
def outdated (fs : FileSystem) (self : PyPath) (timestamp : Option PyDatetime) : Bool :=
  !(up_to_date fs self timestamp)

/-- Cache fields ExtendedPath.__init__ creates on every instance, both initially None. -/
structure PathState where
  read_bytes_cached_value : Option (List Nat)
  cached_content_value : Option String
deriving DecidableEq

/-- Fresh cache state, as set by __init__. -/
def initPathState : PathState :=
  { read_bytes_cached_value := none, cached_content_value := none }

/-- Python truthiness of the text slot: None and the empty string are falsy. -/
def truthyText : Option String → Bool
  | none => false
  | some s => !(s == "")

/-- Python truthiness of the bytes slot: None and the empty byte string are falsy. -/
def truthyBytes : Option (List Nat) → Bool
  | none => false
  | some bs => !(bs.isEmpty)

/-- ExtendedPath.read_text_cached: when the slot is falsy or reload is requested, read
    the file and store the result; otherwise return the stored value. Returns the
    content together with the updated cache state. -/
def read_text_cached (fs : FileSystem) (self : PyPath) (st : PathState) (reload : Bool) :
    String × PathState :=
  if !(truthyText st.cached_content_value) || reload then
    let v := fs.readText (pathText self)
    (v, { st with cached_content_value := some v })
  else
    (st.cached_content_value.getD "", st)

/-- ExtendedPath.read_bytes_cached: the bytes analogue of read_text_cached, on the
    independent bytes slot. -/
def read_bytes_cached (fs : FileSystem) (self : PyPath) (st : PathState) (reload : Bool) :
    List Nat × PathState :=
  if !(truthyBytes st.read_bytes_cached_value) || reload then
    let v := fs.readBytes (pathText self)
    (v, { st with read_bytes_cached_value := some v })
  else
    (st.read_bytes_cached_value.getD [], st)

/-- Sample base path used in witnesses. -/
def basePath : PyPath := { absolute := false, segments := ["Base"] }

/-- Sample filesystem where every path exists with modification time five. -/
def fsAt5 : FileSystem :=
  { exists_ := fun _ => true, mtime := fun _ => 5,
    readText := fun _ => "Text", readBytes := fun _ => [84] }

/-- Sample filesystem where no path exists. -/
def fsNone : FileSystem :=
  { exists_ := fun _ => false, mtime := fun _ => 0,
    readText := fun _ => "", readBytes := fun _ => [] }

/-- Sample filesystem whose files all read as empty content. -/
def fsEmpty : FileSystem :=
  { exists_ := fun _ => true, mtime := fun _ => 0,
    readText := fun _ => "", readBytes := fun _ => [] }

/-- Sample filesystem whose files all read as the word new. -/
def fsNew : FileSystem :=
  { exists_ := fun _ => true, mtime := fun _ => 9,
    readText := fun _ => "new", readBytes := fun _ => [110] }

/-- Sample datetime with POSIX timestamp three. -/
def dtRef3 : PyDatetime :=
  { ts := 3, year := 1970, month := 1, day := 1, hour := 0, minute := 0, second := 3 }

/-- Sample datetime with POSIX timestamp five. -/
def dtRef5 : PyDatetime :=
  { ts := 5, year := 1970, month := 1, day := 1, hour := 0, minute := 0, second := 5 }

/-- Sample 256 byte segment violating only the byte-length rule. -/
def longSeg : String := String.mk (List.replicate 256 'a')

/-- Sample 256 byte segment whose last character is also an illegal character. -/
def longSegIllegal : String := String.mk (List.replicate 255 'a' ++ ['<'])
deriving instance DecidableEq for Except

theorem strData_inj {s t : String} (h : s.data = t.data) : s = t := congrArg String.mk h

theorem splitAll_cons (c : Char) (cs : List Char) :
    splitAll (c :: cs) = splitPush c (splitAll cs) := rfl

theorem splitAll_no_slash (cs : List Char) (h : ∀ c ∈ cs, ¬ c = '/') : splitAll cs = [cs] := by
  induction cs with
  | nil => rfl
  | cons c rest ih =>
    have hc : ¬ c = '/' := h c (by simp)
    rw [splitAll_cons, ih (fun x hx => h x (by simp [hx]))]
    simp [splitPush, hc]

theorem findSome?_append_none {α β : Type} (f : α → Option β) (L M : List α)
    (h : ∀ x ∈ L, f x = none) : List.findSome? f (L ++ M) = List.findSome? f M := by
  induction L with
  | nil => rfl
  | cons a L ih =>
    have ha : f a = none := h a (by simp)
    simp only [List.cons_append, List.findSome?_cons, ha]
    exact ih (fun x hx => h x (by simp [hx]))

theorem data_ne_nil_of_ne_empty {s : String} (h : s ≠ "") : s.data ≠ [] := by
  intro hd
  exact h (strData_inj (by simp [hd]))

theorem pathParse_single (s : String) (hsl : ∀ c ∈ s.data, ¬ c = '/') (hne : s ≠ "")
    (hdot : s ≠ ".") : pathParse s = { absolute := false, segments := [s] } := by
  have hd : s.data ≠ [] := data_ne_nil_of_ne_empty hne
  have hdd : s.data ≠ ['.'] := by
    intro h
    exact hdot (strData_inj (by simp [h]))
  unfold pathParse
  rw [splitAll_no_slash s.data hsl]
  congr 1
  · cases h : s.data with
    | nil => rfl
    | cons c rest =>
      have : ¬ c = '/' := hsl c (by simp [h])
      simp [this]
  · simp [hd, hdd]

theorem joinChars_cons_of_ne_nil (a : String) (t : List String) (h : t ≠ []) :
    joinChars (a :: t) = a.data ++ '/' :: joinChars t := by
  cases t with
  | nil => exact absurd rfl h
  | cons b r => rfl

theorem joinChars_append_ne_dot (l : List String) (s : String) (hs : s ≠ ".") :
    joinChars (l ++ [s]) ≠ ['.'] := by
  cases l with
  | nil =>
    intro h
    exact hs (strData_inj (by simpa using h))
  | cons a l2 =>
    rw [List.cons_append, joinChars_cons_of_ne_nil a (l2 ++ [s]) (by simp)]
    intro h
    cases hd : a.data with
    | nil => rw [hd] at h; simp at h
    | cons c t =>
      rw [hd] at h
      simp at h

theorem pathText_single (s : String) : pathText { absolute := false, segments := [s] } = s := by
  simp [pathText, joinChars]

theorem pathText_append_ne_dot (ab : Bool) (l : List String) (s : String) (hs : s ≠ ".") :
    pathText { absolute := ab, segments := l ++ [s] } ≠ "." := by
  have hne : l ++ [s] ≠ ([] : List String) := by simp
  intro h
  cases hl : l ++ [s] with
  | nil => exact hne hl
  | cons a t =>
    rw [pathText, hl] at h
    cases ab with
    | true =>
      simp only [if_pos rfl] at h
      have := congrArg String.data h
      simp at this
    | false =>
      simp only [Bool.false_eq_true, if_neg] at h
      have := congrArg String.data h
      rw [← hl] at this
      simp at this
      exact joinChars_append_ne_dot l s hs this

theorem validate_filepath_none (p : PyPath) (h : validate_filepath p = none) :
    ∀ x ∈ p.segments, validateSegment x = none := by
  unfold validate_filepath at h
  split at h
  · exact absurd h (by simp)
  · exact List.findSome?_eq_none_iff.mp h

theorem validate_filepath_single (s : String) (hdot : s ≠ ".") :
    validate_filepath { absolute := false, segments := [s] } = validateSegment s := by
  unfold validate_filepath
  rw [pathText_single]
  rw [if_neg hdot]
  cases h : validateSegment s <;> simp [List.findSome?, h]

theorem convert_vStr (s : String) : _convert_to_path (.vStr s) = pathParse s := rfl

theorem new_single (s : String) (hsl : ∀ c ∈ s.data, ¬ c = '/') (hne : s ≠ "") (hdot : s ≠ ".") :
    ExtendedPath.new [.vStr s]
      = match validateSegment s with
        | some e => .error e
        | none => .ok { absolute := false, segments := [s] } := by
  unfold ExtendedPath.new
  rw [show List.map _convert_to_path [.vStr s] = [pathParse s] from rfl,
    pathParse_single s hsl hne hdot]
  dsimp only
  rw [show pathJoin [{ absolute := false, segments := [s] }]
      = { absolute := false, segments := [s] } from rfl]
  rw [validate_filepath_single s hdot]

theorem truediv_single (base : PyPath) (hb : validate_filepath base = none) (s : String)
    (hsl : ∀ c ∈ s.data, ¬ c = '/') (hne : s ≠ "") (hdot : s ≠ ".") :
    ExtendedPath.truediv base (.vStr s)
      = match validateSegment s with
        | some e => .error e
        | none => .ok { absolute := base.absolute, segments := base.segments ++ [s] } := by
  unfold ExtendedPath.truediv
  rw [convert_vStr, pathParse_single s hsl hne hdot]
  rw [show joinStep base { absolute := false, segments := [s] }
      = { absolute := base.absolute, segments := base.segments ++ [s] } from rfl]
  dsimp only
  have htext : pathText { absolute := base.absolute, segments := base.segments ++ [s] } ≠ "." :=
    pathText_append_ne_dot base.absolute base.segments s hdot
  unfold validate_filepath
  rw [if_neg htext]
  have hseg : List.findSome? validateSegment (base.segments ++ [s]) = validateSegment s := by
    rw [findSome?_append_none validateSegment base.segments [s] (validate_filepath_none base hb)]
    cases h : validateSegment s <;> simp [List.findSome?, h]
  rw [hseg]

theorem dropWhile_append_all {p : Char → Bool} (A B : List Char) (h : ∀ c ∈ A, p c = true) :
    (A ++ B).dropWhile p = B.dropWhile p := by
  induction A with
  | nil => rfl
  | cons a A ih =>
    simp only [List.cons_append, List.dropWhile_cons, h a (by simp)]
    exact ih (fun c hc => h c (by simp [hc]))

theorem string_append_data (a b : String) : (a ++ b).data = a.data ++ b.data := rfl

theorem stemOf_append (seg ext : String) (hne : seg ≠ "")
    (hdot : ∀ c ∈ ext.data, ¬ c = '.') : stemOf (seg ++ "." ++ ext) = seg := by
  have hd : (seg ++ "." ++ ext).data = seg.data ++ '.' :: ext.data := by
    rw [string_append_data, string_append_data,
      show (".".data : List Char) = ['.'] from by decide]
    simp
  obtain ⟨c, t, hrev⟩ : ∃ c t, seg.data.reverse = c :: t := by
    cases h : seg.data.reverse with
    | nil => exact absurd (by simpa using congrArg List.reverse h) (data_ne_nil_of_ne_empty hne)
    | cons c t => exact ⟨c, t, rfl⟩
  have hdw : ((seg ++ "." ++ ext).data.reverse).dropWhile (fun x => !(x == '.'))
      = '.' :: c :: t := by
    rw [hd, show (seg.data ++ '.' :: ext.data).reverse
        = ext.data.reverse ++ '.' :: seg.data.reverse from by simp]
    rw [dropWhile_append_all ext.data.reverse _ (fun x hx => by simp [hdot x (by simpa using hx)])]
    rw [List.dropWhile_cons, if_neg (by simp), hrev]
  unfold stemOf stemChars
  rw [hdw]
  show String.mk ((c :: t).reverse) = seg
  rw [show (c :: t).reverse = seg.data from by rw [← hrev]; simp]

theorem contains_reserved {a : String} (h : a ∈ reservedNames) :
    reservedNames.contains a = true := List.elem_iff.mpr h

/-- C1: constructing a path from, or appending to any valid base path, a segment that
    case-insensitively equals one of the 22 reserved device names — either as the full
    segment text or as the name-without-extension — raises the illegal-name failure and
    produces no path value. -/
theorem reserved_names_rejected (base : PyPath) (hbase : validate_filepath base = none)
    (name : String) (hname : name ∈ reservedNames)
    (seg : String) (hup : upperStr seg = name) (hsl : '/' ∉ seg.data)
    (ext : String) (hedot : '.' ∉ ext.data) (hesl : '/' ∉ ext.data) :
    ExtendedPath.new [.vStr seg] = .error (.illegalName seg)
    ∧ ExtendedPath.truediv base (.vStr seg) = .error (.illegalName seg)
    ∧ ExtendedPath.new [.vStr (seg ++ "." ++ ext)] = .error (.illegalName (seg ++ "." ++ ext))
    ∧ ExtendedPath.truediv base (.vStr (seg ++ "." ++ ext))
        = .error (.illegalName (seg ++ "." ++ ext)) := by
  have hne : seg ≠ "" := by
    rintro rfl
    rw [show upperStr "" = "" from rfl] at hup
    rw [← hup] at hname
    exact absurd hname (by decide)
  have hdot : seg ≠ "." := by
    rintro rfl
    rw [show upperStr "." = "." from by decide] at hup
    rw [← hup] at hname
    exact absurd hname (by decide)
  have hsl2 : ∀ c ∈ seg.data, ¬ c = '/' := fun c hc he => hsl (he ▸ hc)
  have hvs : validateSegment seg = some (.illegalName seg) := by
    unfold validateSegment
    rw [hup, contains_reserved hname]
    simp
  have hd2 : (seg ++ "." ++ ext).data = seg.data ++ '.' :: ext.data := by
    rw [string_append_data, string_append_data,
      show (".".data : List Char) = ['.'] from by decide]
    simp
  have hne2 : (seg ++ "." ++ ext) ≠ "" := by
    intro h
    have := congrArg String.data h
    rw [hd2] at this
    simp at this
  have hdot2 : (seg ++ "." ++ ext) ≠ "." := by
    intro h
    have := congrArg String.data h
    rw [hd2, show (".".data : List Char) = ['.'] from by decide] at this
    cases hsd : seg.data with
    | nil => exact data_ne_nil_of_ne_empty hne hsd
    | cons a u => rw [hsd] at this; simp at this
  have hsl3 : ∀ c ∈ (seg ++ "." ++ ext).data, ¬ c = '/' := by
    intro c hc he
    rw [hd2] at hc
    subst he
    rcases List.mem_append.mp hc with h | h
    · exact hsl h
    · rcases List.mem_cons.mp h with h | h
      · exact absurd h (by decide)
      · exact hesl h
  have hstem : stemOf (seg ++ "." ++ ext) = seg :=
    stemOf_append seg ext hne (fun c hc he => hedot (he ▸ hc))
  have hvs2 : validateSegment (seg ++ "." ++ ext)
      = some (.illegalName (seg ++ "." ++ ext)) := by
    unfold validateSegment
    rw [hstem, hup, contains_reserved hname]
    simp
  refine ⟨?_, ?_, ?_, ?_⟩
  · rw [new_single seg hsl2 hne hdot, hvs]
  · rw [truediv_single base hbase seg hsl2 hne hdot, hvs]
  · rw [new_single _ hsl3 hne2 hdot2, hvs2]
  · rw [truediv_single base hbase _ hsl3 hne2 hdot2, hvs2]

/-- C1 witness: the lowercase name con, bare and with extension txt, is rejected at
    construction and when appended to the base path Base. -/
theorem reserved_names_rejected_witness :
    ExtendedPath.new [.vStr "con"] = .error (.illegalName "con")
    ∧ ExtendedPath.truediv basePath (.vStr "con") = .error (.illegalName "con")
    ∧ ExtendedPath.new [.vStr ("con" ++ "." ++ "txt")]
        = .error (.illegalName ("con" ++ "." ++ "txt"))
    ∧ ExtendedPath.truediv basePath (.vStr ("con" ++ "." ++ "txt"))
        = .error (.illegalName ("con" ++ "." ++ "txt")) :=
  reserved_names_rejected basePath (by decide) "CON" (by decide) "con" (by decide) (by decide)
    "txt" (by decide) (by decide)

/-- C2: every observable path value — produced by construction or by append — has
    passed the filename validator as a whole; validity is an invariant of every
    reachable path value. -/
theorem reachable_paths_validated (p : PyPath) (h : ReachablePath p) :
    validate_filepath p = none := by
  induction h with
  | new args q hq =>
    unfold ExtendedPath.new at hq
    revert hq
    cases hv : validate_filepath (pathJoin (args.map _convert_to_path)) with
    | some e => intro hq; simp [hv] at hq
    | none =>
      intro hq
      simp only [hv] at hq
      simp at hq
      rw [← hq]
      exact hv
  | div base key q hbase hq ih =>
    unfold ExtendedPath.truediv at hq
    revert hq
    cases hv : validate_filepath (joinStep base (_convert_to_path key)) with
    | some e => intro hq; simp [hv] at hq
    | none =>
      intro hq
      simp only [hv] at hq
      simp at hq
      rw [← hq]
      exact hv

/-- C2 witness: the path value produced by constructing Base is validated. -/
theorem reachable_paths_validated_witness : validate_filepath basePath = none :=
  reachable_paths_validated basePath
    (ReachablePath.new [.vStr "Base"] basePath (by decide))

/-- C3: evaluation of the code at the failing input: the bytes of abc convert via the
    Python str of a bytes object, producing the six character repr with a b prefix and
    quotes, not the three character UTF-8 decoding abc claimed by the spec. -/
theorem bytes_convert_to_python_repr :
    pathText (_convert_to_path (.vBytes [97, 98, 99]))
      = String.mk ('b' :: apos :: 'a' :: 'b' :: 'c' :: apos :: [])
    ∧ pathText (_convert_to_path (.vBytes [97, 98, 99])) ≠ "abc" := by decide

/-- C4 counterexample: converting the text a backslash b leaves the backslash in the
    textual result; it is not rewritten to a forward slash. -/
theorem backslash_not_rewritten_cex :
    (pathText (_convert_to_path (.vStr "a\\b"))).data.contains '\\' = true
    ∧ pathText (_convert_to_path (.vStr "a\\b")) ≠ "a/b" := by decide

/-- C4 amended: the converter performs no character rewriting: a nonempty text value
    other than the single period and containing no forward slash converts to exactly
    itself, any backslash characters included. -/
theorem text_converts_unchanged (s : String) (hsl : '/' ∉ s.data) (hne : s ≠ "")
    (hdot : s ≠ ".") : pathText (_convert_to_path (.vStr s)) = s := by
  rw [convert_vStr, pathParse_single s (fun c hc he => hsl (he ▸ hc)) hne hdot, pathText_single]

/-- C4 witness: the text a backslash b converts to itself, backslash included. -/
theorem text_converts_unchanged_witness :
    pathText (_convert_to_path (.vStr "a\\b")) = "a\\b" :=
  text_converts_unchanged "a\\b" (by decide) (by decide) (by decide)

set_option maxRecDepth 40000 in
/-- C5 counterexample: a 256 byte segment that also contains an illegal character is
    rejected with the illegal-name failure, not the name-too-long failure. -/
theorem overlong_with_illegal_char_cex :
    ExtendedPath.new [.vStr longSegIllegal] = .error (.illegalName longSegIllegal)
    ∧ 255 < utf8Len longSegIllegal := by decide

/-- C5 amended: a segment whose UTF-8 byte length exceeds 255 and that violates none of
    the earlier rules (not reserved, no trailing period or space, no illegal character)
    raises the name-too-long failure at construction and at append, a failure kind
    distinct from the illegal-name failure. -/
theorem overlong_clean_segment_name_too_long (base : PyPath)
    (hbase : validate_filepath base = none) (seg : String)
    (hres : reservedNames.contains (upperStr seg) = false)
    (hres2 : reservedNames.contains (upperStr (stemOf seg)) = false)
    (htr : endsWithChar seg '.' = false)
    (hsp : endsWithChar seg ' ' = false)
    (hic : seg.data.any (fun c => illegalCharacters.contains c) = false)
    (hlen : 255 < utf8Len seg) :
    ExtendedPath.new [.vStr seg] = .error (.nameTooLong seg)
    ∧ ExtendedPath.truediv base (.vStr seg) = .error (.nameTooLong seg)
    ∧ ∀ s t : String, ValidationError.nameTooLong s ≠ ValidationError.illegalName t := by
  have hne : seg ≠ "" := by
    rintro rfl
    simp [utf8Len] at hlen
  have hdot : seg ≠ "." := by
    rintro rfl
    exact absurd htr (by decide)
  have hsl2 : ∀ c ∈ seg.data, ¬ c = '/' := by
    intro c hc he
    subst he
    have hany : seg.data.any (fun c => illegalCharacters.contains c) = true :=
      List.any_eq_true.mpr ⟨'/', hc, by decide⟩
    exact Bool.false_ne_true (hic ▸ hany)
  have hvs : validateSegment seg = some (.nameTooLong seg) := by
    unfold validateSegment
    rw [hres, hres2, htr, hsp, hic]
    simp [hlen]
  refine ⟨?_, ?_, ?_⟩
  · rw [new_single seg hsl2 hne hdot, hvs]
  · rw [truediv_single base hbase seg hsl2 hne hdot, hvs]
  · intro s t h
    exact ValidationError.noConfusion h

set_option maxRecDepth 40000 in
/-- C5 witness: a 256 byte clean segment is rejected as name-too-long at construction
    and when appended to the base path Base. -/
theorem overlong_clean_segment_name_too_long_witness :
    ExtendedPath.new [.vStr longSeg] = .error (.nameTooLong longSeg)
    ∧ ExtendedPath.truediv basePath (.vStr longSeg) = .error (.nameTooLong longSeg)
    ∧ ∀ s t : String, ValidationError.nameTooLong s ≠ ValidationError.illegalName t :=
  overlong_clean_segment_name_too_long basePath (by decide) longSeg (by decide) (by decide)
    (by decide) (by decide) (by decide) (by decide)

theorem natDigitsAux_digits (fuel : Nat) : ∀ (n : Nat), ∀ c ∈ natDigitsAux fuel n,
    ∃ d, d < 10 ∧ c = digitChar d := by
  induction fuel with
  | zero => intro n c hc; simp [natDigitsAux] at hc
  | succ fuel ih =>
    intro n c hc
    rw [natDigitsAux] at hc
    by_cases h : n < 10
    · rw [if_pos h] at hc
      simp at hc
      exact ⟨n, h, hc⟩
    · rw [if_neg h] at hc
      rcases List.mem_append.mp hc with h2 | h2
      · exact ih (n / 10) c h2
      · simp at h2
        exact ⟨n % 10, Nat.mod_lt _ (by decide), h2⟩

theorem natDigits_digits (n : Nat) : ∀ c ∈ natDigits n, ∃ d, d < 10 ∧ c = digitChar d :=
  natDigitsAux_digits (n + 1) n

theorem natDigits_ne_nil (n : Nat) : natDigits n ≠ [] := by
  unfold natDigits natDigitsAux
  split
  · simp
  · simp

theorem digitChar_ne : ∀ d, d < 10 →
    digitChar d ≠ '-' ∧ digitChar d ≠ '/' ∧ digitChar d ≠ '.' := by decide

theorem intStr_chars (n : Int) : ∀ c ∈ (intStr n).data,
    c = '-' ∨ ∃ d, d < 10 ∧ c = digitChar d := by
  intro c hc
  unfold intStr at hc
  split at hc
  · replace hc : c ∈ '-' :: natDigits n.natAbs := hc
    rcases List.mem_cons.mp hc with h | h
    · exact Or.inl h
    · exact Or.inr (natDigits_digits _ c h)
  · replace hc : c ∈ natDigits n.toNat := hc
    exact Or.inr (natDigits_digits _ c hc)

theorem intStr_ne_empty (n : Int) : intStr n ≠ "" := by
  intro h
  have hd := congrArg String.data h
  revert hd
  unfold intStr
  split
  · intro hd; simp at hd
  · intro hd
    exact natDigits_ne_nil n.toNat (by simpa using hd)

theorem intStr_no_slash (n : Int) : '/' ∉ (intStr n).data := by
  intro h
  rcases intStr_chars n '/' h with h2 | ⟨d, hd, h2⟩
  · exact absurd h2 (by decide)
  · exact (digitChar_ne d hd).2.1 h2.symm

theorem intStr_ne_dot (n : Int) : intStr n ≠ "." := by
  intro h
  have hd : '.' ∈ (intStr n).data := by
    rw [h]
    decide
  rcases intStr_chars n '.' hd with h2 | ⟨d, hd2, h2⟩
  · exact absurd h2 (by decide)
  · exact (digitChar_ne d hd2).2.2 h2.symm

theorem padZeros_head (w n : Nat) : ∃ c, (padZeros w n).head? = some c
    ∧ ∃ d, d < 10 ∧ c = digitChar d := by
  unfold padZeros
  cases hk : w - (natDigits n).length with
  | zero =>
    cases hd : natDigits n with
    | nil => exact absurd hd (natDigits_ne_nil n)
    | cons c t =>
      refine ⟨c, by simp [hd], ?_⟩
      exact natDigits_digits n c (by simp [hd])
  | succ k => exact ⟨'0', by simp [List.replicate_succ], 0, by decide, by decide⟩

theorem dateStr_data (y m d : Nat) : (dateStr y m d).data
    = padZeros 4 y ++ '-' :: (padZeros 2 m ++ '-' :: padZeros 2 d) := rfl

theorem intStr_ne_dateStr (n : Int) (y m d : Nat) : intStr n ≠ dateStr y m d := by
  intro h
  have hd := congrArg String.data h
  by_cases hn : n < 0
  · unfold intStr at hd
    rw [if_pos hn] at hd
    replace hd : '-' :: natDigits n.natAbs
        = padZeros 4 y ++ '-' :: (padZeros 2 m ++ '-' :: padZeros 2 d) := by
      rw [← dateStr_data]
      exact hd
    have hh := congrArg List.head? hd
    obtain ⟨c, hc, d2, hd2, hcd⟩ := padZeros_head 4 y
    rw [List.head?_append, hc] at hh
    simp at hh
    exact (digitChar_ne d2 hd2).1 (hcd ▸ hh.symm)
  · unfold intStr at hd
    rw [if_neg hn] at hd
    have hm : '-' ∈ (dateStr y m d).data := by
      rw [dateStr_data]
      simp
    rw [← hd] at hm
    replace hm : '-' ∈ natDigits n.toNat := hm
    obtain ⟨d2, hd2, h2⟩ := natDigits_digits _ '-' hm
    exact (digitChar_ne d2 hd2).1 h2.symm

/-- C6: a datetime value converts to the string form of its integer Unix timestamp;
    the datetime branch is tested before the plain-date branch (a datetime also
    satisfies the date test, as the last conjunct but one records), so the result is
    never the YYYY-MM-DD date rendering. -/
theorem datetime_converts_before_date (f : PyDatetime) :
    _convert_to_path (.vDatetime f) = pathParse (intStr f.ts)
    ∧ pathText (_convert_to_path (.vDatetime f)) = intStr f.ts
    ∧ isinstance_date (.vDatetime f) = true
    ∧ intStr f.ts ≠ dateStr f.year f.month f.day := by
  refine ⟨rfl, ?_, rfl, intStr_ne_dateStr f.ts f.year f.month f.day⟩
  rw [show _convert_to_path (.vDatetime f) = pathParse (intStr f.ts) from rfl]
  rw [pathParse_single (intStr f.ts) (fun c hc he => intStr_no_slash f.ts (he ▸ hc))
    (intStr_ne_empty f.ts) (intStr_ne_dot f.ts)]
  exact pathText_single (intStr f.ts)

/-- C7: up_to_date is false for a nonexistent path regardless of reference time; true
    for an existing path with no reference time; for an existing path with a reference
    time it is true exactly when the aware mtime is strictly later than the normalized
    reference time, and equality yields false. -/
theorem up_to_date_spec (fs : FileSystem) (self : PyPath) (t : Option PyDatetime) :
    (fs.exists_ (pathText self) = false → up_to_date fs self t = false)
    ∧ (fs.exists_ (pathText self) = true → up_to_date fs self none = true)
    ∧ (∀ r, fs.exists_ (pathText self) = true → t = some r →
        (up_to_date fs self t = true ↔ r.ts < aware_mtime fs self))
    ∧ (∀ r, fs.exists_ (pathText self) = true → t = some r →
        aware_mtime fs self = r.ts → up_to_date fs self t = false) := by
  refine ⟨?_, ?_, ?_, ?_⟩
  · intro h
    simp [up_to_date, h]
  · intro h
    simp [up_to_date, h]
  · intro r h ht
    subst ht
    simp [up_to_date, h]
  · intro r h ht heq
    subst ht
    simp [up_to_date, h, heq]

/-- C7 witness: concrete checks of all four arms on sample filesystems with
    modification time five and reference times three and five. -/
theorem up_to_date_spec_witness :
    up_to_date fsNone basePath (some dtRef3) = false
    ∧ up_to_date fsAt5 basePath none = true
    ∧ up_to_date fsAt5 basePath (some dtRef3) = true
    ∧ up_to_date fsAt5 basePath (some dtRef5) = false :=
  ⟨(up_to_date_spec fsNone basePath (some dtRef3)).1 rfl,
   (up_to_date_spec fsAt5 basePath none).2.1 rfl,
   ((up_to_date_spec fsAt5 basePath (some dtRef3)).2.2.1 dtRef3 rfl rfl).mpr (by decide),
   (up_to_date_spec fsAt5 basePath (some dtRef5)).2.2.2 dtRef5 rfl rfl rfl⟩

/-- C8: outdated is the exact logical negation of up_to_date, for every path and every
    optional reference time. -/
theorem outdated_negates_up_to_date (fs : FileSystem) (self : PyPath)
    (t : Option PyDatetime) : outdated fs self t = !(up_to_date fs self t) := rfl

/-- C9 counterexample: a prior cached read that stored empty content does not stop a
    later reload-false call from re-reading: after the file is externally overwritten,
    the later call returns the new content instead of the stored empty content. -/
theorem cached_empty_reread_cex :
    read_text_cached fsEmpty basePath initPathState false
      = ("", { initPathState with cached_content_value := some "" })
    ∧ read_text_cached fsNew basePath { initPathState with cached_content_value := some "" } false
      = ("new", { initPathState with cached_content_value := some "new" })
    ∧ ("new" : String) ≠ "" := by decide

/-- C9 amended: once the relevant slot stores nonempty content, a reload-false call
    returns the stored content unchanged, independently of the filesystem and without
    modifying the state; a reload-true call re-reads the filesystem and stores and
    returns the new content. -/
theorem cached_nonempty_stable_until_reload (fs fs2 : FileSystem) (self : PyPath)
    (st : PathState) (c : String) (bs : List Nat) :
    (st.cached_content_value = some c → c ≠ "" →
      read_text_cached fs2 self st false = (c, st))
    ∧ (st.read_bytes_cached_value = some bs → bs ≠ [] →
      read_bytes_cached fs2 self st false = (bs, st))
    ∧ (read_text_cached fs self st true
      = (fs.readText (pathText self),
         { st with cached_content_value := some (fs.readText (pathText self)) }))
    ∧ (read_bytes_cached fs self st true
      = (fs.readBytes (pathText self),
         { st with read_bytes_cached_value := some (fs.readBytes (pathText self)) })) := by
  refine ⟨?_, ?_, ?_, ?_⟩
  · intro h hne
    simp [read_text_cached, truthyText, h, hne]
  · intro h hne
    simp [read_bytes_cached, truthyBytes, h, hne]
  · simp [read_text_cached]
  · simp [read_bytes_cached]

/-- C9 witness: with the word Text and the byte 84 stored, reload-false calls return
    the stored content unchanged even on the filesystem with different content, and
    reload-true calls return that filesystem content. -/
theorem cached_nonempty_stable_until_reload_witness :
    read_text_cached fsNew basePath
      { read_bytes_cached_value := some [84], cached_content_value := some "Text" } false
      = ("Text", { read_bytes_cached_value := some [84], cached_content_value := some "Text" })
    ∧ read_bytes_cached fsNew basePath
      { read_bytes_cached_value := some [84], cached_content_value := some "Text" } false
      = ([84], { read_bytes_cached_value := some [84], cached_content_value := some "Text" })
    ∧ read_text_cached fsNew basePath
      { read_bytes_cached_value := some [84], cached_content_value := some "Text" } true
      = ("new", { read_bytes_cached_value := some [84], cached_content_value := some "new" })
    ∧ read_bytes_cached fsNew basePath
      { read_bytes_cached_value := some [84], cached_content_value := some "Text" } true
      = ([110], { read_bytes_cached_value := some [110], cached_content_value := some "Text" }) :=
  ⟨(cached_nonempty_stable_until_reload fsNew fsNew basePath _ "Text" [84]).1 rfl (by decide),
   (cached_nonempty_stable_until_reload fsNew fsNew basePath _ "Text" [84]).2.1 rfl (by decide),
   (cached_nonempty_stable_until_reload fsNew fsNew basePath
     { read_bytes_cached_value := some [84], cached_content_value := some "Text" } "Text" [84]).2.2.1,
   (cached_nonempty_stable_until_reload fsNew fsNew basePath
     { read_bytes_cached_value := some [84], cached_content_value := some "Text" } "Text" [84]).2.2.2⟩

/-- C10: a slot holding the empty string (text) or the empty byte sequence (bytes) is
    treated exactly as an absent cache by a reload-false call: the filesystem is read
    again and the slot overwritten, just as if the slot had never been populated. -/
theorem empty_cache_treated_as_absent (fs : FileSystem) (self : PyPath) (st : PathState) :
    (st.cached_content_value = some "" →
      read_text_cached fs self st false
        = read_text_cached fs self { st with cached_content_value := none } false)
    ∧ (st.read_bytes_cached_value = some [] →
      read_bytes_cached fs self st false
        = read_bytes_cached fs self { st with read_bytes_cached_value := none } false)
    ∧ (st.cached_content_value = some "" →
      read_text_cached fs self st false
        = (fs.readText (pathText self),
           { st with cached_content_value := some (fs.readText (pathText self)) }))
    ∧ (st.read_bytes_cached_value = some [] →
      read_bytes_cached fs self st false
        = (fs.readBytes (pathText self),
           { st with read_bytes_cached_value := some (fs.readBytes (pathText self)) })) := by
  refine ⟨?_, ?_, ?_, ?_⟩
  · intro h
    simp [read_text_cached, truthyText, h]
  · intro h
    simp [read_bytes_cached, truthyBytes, h]
  · intro h
    simp [read_text_cached, truthyText, h]
  · intro h
    simp [read_bytes_cached, truthyBytes, h]

/-- C10 witness: with empty text and empty bytes stored, reload-false calls re-read
    the filesystem and overwrite the slots, as with absent slots. -/
theorem empty_cache_treated_as_absent_witness :
    read_text_cached fsNew basePath
      { read_bytes_cached_value := some [], cached_content_value := some "" } false
      = read_text_cached fsNew basePath
        { read_bytes_cached_value := some [], cached_content_value := none } false
    ∧ read_bytes_cached fsNew basePath
      { read_bytes_cached_value := some [], cached_content_value := some "" } false
      = read_bytes_cached fsNew basePath
        { read_bytes_cached_value := none, cached_content_value := some "" } false
    ∧ read_text_cached fsNew basePath
      { read_bytes_cached_value := some [], cached_content_value := some "" } false
      = ("new", { read_bytes_cached_value := some [], cached_content_value := some "new" })
    ∧ read_bytes_cached fsNew basePath
      { read_bytes_cached_value := some [], cached_content_value := some "" } false
      = ([110], { read_bytes_cached_value := some [110], cached_content_value := some "" }) :=
  ⟨(empty_cache_treated_as_absent fsNew basePath
      { read_bytes_cached_value := some [], cached_content_value := some "" }).1 rfl,
   (empty_cache_treated_as_absent fsNew basePath
      { read_bytes_cached_value := some [], cached_content_value := some "" }).2.1 rfl,
   (empty_cache_treated_as_absent fsNew basePath
      { read_bytes_cached_value := some [], cached_content_value := some "" }).2.2.1 rfl,
   (empty_cache_treated_as_absent fsNew basePath
      { read_bytes_cached_value := some [], cached_content_value := some "" }).2.2.2 rfl⟩
